import Mathlib

/-!
Shallow embedding of the VoxNotes voice-note application (a React/TypeScript
single-page app). Pure computations of the source are translated into Lean
functions; React component state is made explicit as record types, and each
event handler becomes a state-transition function. External collaborators
(microphone, the transcription service, the blob store) are represented by
explicit outcome parameters and by effect-log fields on the state.
-/

namespace VoxNotes

/-! ### JavaScript string primitives -/

/-- JS `String.prototype.trim`: drop leading and trailing whitespace. -/
def jsTrim (s : String) : String :=
  ⟨(((s.data.dropWhile Char.isWhitespace).reverse).dropWhile Char.isWhitespace).reverse⟩

/-- JS `String.prototype.toLowerCase`, restricted to the ASCII case fold. -/
def jsToLower (s : String) : String := ⟨s.data.map Char.toLower⟩

/-- Whether the first list occurs at the head of the second. -/
def prefixMatch : List Char → List Char → Bool
  | [], _ => true
  | _ :: _, [] => false
  | a :: as, b :: bs => a == b && prefixMatch as bs

/-- Whether the pattern occurs anywhere in the text. -/
def subMatch (pat : List Char) : List Char → Bool
  | [] => prefixMatch pat []
  | b :: bs => prefixMatch pat (b :: bs) || subMatch pat bs

/-- JS `haystack.includes(needle)`. -/
def jsIncludes (s pat : String) : Bool := subMatch pat.data s.data

/-- JS `value.replace(/\D/g, "")`: keep only the decimal digits. -/
def stripNonDigits (s : String) : String := ⟨s.data.filter Char.isDigit⟩

/-- JS `a || b` on an optional string: `b` unless `a` is present and nonempty. -/
def jsOrElse (a : Option String) (b : String) : String :=
  match a with
  | some s => if s = "" then b else s
  | none => b

/-! ### Data model (`types.ts`) -/

/-- RecordingStatus enum from `types.ts`. -/
inductive RecordingStatus
  | IDLE
  | RECORDING
  | TRANSCRIBING
deriving DecidableEq, Repr

/-- SortOption union type from `Snowfall.tsx` (App component). -/
inductive SortOption
  | newest
  | oldest
  | longest
  | shortest
  | alphabetical
deriving DecidableEq, Repr

/-- Folder record from `types.ts`. -/
structure Folder where
  id : String
  name : String
  timestamp : Int
  pin : Option String := none
deriving DecidableEq, Repr

/-- Note record from `types.ts`. -/
structure Note where
  id : String
  title : String
  transcription : String
  summary : Option String := none
  actionItems : Option (List String) := none
  tags : List String := []
  audioUrl : String := ""
  timestamp : Int := 0
  duration : Int := 0
  isPinned : Bool := false
  isFavorite : Bool := false
  folderId : Option String := none
  translatedTranscription : Option String := none
  translatedLanguage : Option String := none
deriving DecidableEq, Repr

/-! ### The sort comparator of `filteredAndSortedNotes` -/

/-- Three-way lexicographic comparison of character lists by code point. -/
def lexCmp : List Char → List Char → Int
  | [], [] => 0
  | [], _ :: _ => -1
  | _ :: _, [] => 1
  | a :: as, b :: bs => if a < b then -1 else if b < a then 1 else lexCmp as bs

/-- Model of JS `a.localeCompare(b)`: the locale-aware comparison is modelled
at its primary (case-insensitive) level as a lexicographic code-point
comparison of the case-folded strings. Finer ICU collation levels (case,
accents) are below the granularity of this embedding. -/
def localeCompare (a b : String) : Int :=
  lexCmp (a.data.map Char.toLower) (b.data.map Char.toLower)

/-- Body of the `switch (sortBy)` inside the sort comparator. -/
def tieCmp (s : SortOption) (a b : Note) : Int :=
  match s with
  | .oldest => a.timestamp - b.timestamp
  | .longest => b.duration - a.duration
  | .shortest => a.duration - b.duration
  | .alphabetical => localeCompare a.title b.title
  | .newest => b.timestamp - a.timestamp

/-- The comparator passed to `result.sort` in `filteredAndSortedNotes`:
pinned notes first, then the selected order. -/
def noteCmp (s : SortOption) (a b : Note) : Int :=
  if a.isPinned && !b.isPinned then -1
  else if !a.isPinned && b.isPinned then 1
  else tieCmp s a b

/-- The ordering induced by `noteCmp`; JS `Array.prototype.sort` (stable since
ES2019) with comparator `c` is modelled as the stable insertion sort by
`c a b ≤ 0`. -/
def noteLe (s : SortOption) (a b : Note) : Prop := noteCmp s a b ≤ 0

instance (s : SortOption) : DecidableRel (noteLe s) :=
  fun a b => inferInstanceAs (Decidable (noteCmp s a b ≤ 0))

/-! ### Visibility: lock filter, search filter, sort -/

/-- Local binding `lockedFolderIds` in `filteredAndSortedNotes`: ids of the
folders that have a PIN and are not in the unlocked set. -/
def lockedFolderIdsOf (folders : List Folder) (unlockedFolderIds : List String) : List String :=
  (folders.filter (fun f => f.pin.isSome && !(unlockedFolderIds.contains f.id))).map Folder.id

/-- Helper `isFolderLocked` from the App component. -/
def isFolderLocked (folders : List Folder) (unlockedFolderIds : List String) :
    Option String → Bool
  | none => false
  | some fid =>
    match folders.find? (fun f => f.id == fid) with
    | none => false
    | some f => f.pin.isSome && !(unlockedFolderIds.contains fid)

/-- The `filteredAndSortedNotes` memo of the App component: view filter
(with global lock filtering), then the text filter, then the sort. -/
def filteredAndSortedNotes (notes : List Note) (folders : List Folder)
    (unlockedFolderIds : List String) (activeView : String)
    (searchQuery : String) (sortBy : SortOption) : List Note :=
  let lockedFolderIds := lockedFolderIdsOf folders unlockedFolderIds
  let afterView :=
    if activeView = "all" then
      notes.filter (fun n =>
        match n.folderId with
        | none => true
        | some fid => !(lockedFolderIds.contains fid))
    else if activeView = "uncategorized" then
      notes.filter (fun n => n.folderId.isNone)
    else if activeView = "favorites" then
      notes.filter (fun n => n.isFavorite &&
        (match n.folderId with
         | none => true
         | some fid => !(lockedFolderIds.contains fid)))
    else if lockedFolderIds.contains activeView then
      []
    else
      notes.filter (fun n => n.folderId == some activeView)
  let afterSearch :=
    if jsTrim searchQuery ≠ "" then
      let q := jsToLower searchQuery
      afterView.filter (fun n =>
        jsIncludes (jsToLower n.title) q || jsIncludes (jsToLower n.transcription) q)
    else afterView
  List.insertionSort (noteLe sortBy) afterSearch

/-! ### Application state (the App component in `Snowfall.tsx`) -/

/-- Mode of the PIN modal request, from `pinModal` state. -/
inductive PinMode
  | set
  | enter
deriving DecidableEq, Repr

/-- The `pinModal` state value of the App component. -/
structure PinModalInfo where
  mode : PinMode
  folderId : String
  error : Option String := none
deriving DecidableEq, Repr

/-- State of the App component relevant to the verified operations, together
with an effect log for the external AudioBlobStore: `blobStore` holds the ids
currently persisted, `blobDeletesIssued` records every delete instruction sent
to the store, and `blobDeleteFailuresLogged` counts logged delete failures. -/
structure AppState where
  notes : List Note
  folders : List Folder
  unlockedFolderIds : List String
  activeView : String
  searchQuery : String
  sortBy : SortOption
  status : RecordingStatus
  timer : Nat
  pinModal : Option PinModalInfo
  blobStore : List String
  blobDeletesIssued : List String
  blobDeleteFailuresLogged : Nat
deriving DecidableEq, Repr

/-- Modelled from the spec: `storageService` is not among the provided source
files, only its callers are. Per spec section 6, `AudioBlobStore.delete(id)`
returns `ok` (idempotent), and per section 4.3 a blob-delete failure is
logged and does not propagate to the caller. `ok` says whether the underlying
store operation succeeded; either way the call itself returns normally. -/
def deleteAudioBlob (ok : Bool) (id : String) (st : AppState) : AppState :=
  { st with
    blobStore := if ok then st.blobStore.filter (fun b => b ≠ id) else st.blobStore,
    blobDeletesIssued := st.blobDeletesIssued ++ [id],
    blobDeleteFailuresLogged := st.blobDeleteFailuresLogged + (if ok then 0 else 1) }

/-- Modelled from the spec: `storageService.saveAudioBlob` (spec section 6,
`put(id, bytes, mimeType) -> ok | StorageError`). On success the blob is
stored under the id; on failure the call throws to the caller, which is
modelled by the caller branching on `ok` before this effect applies. -/
def saveAudioBlobEffect (id : String) (st : AppState) : AppState :=
  { st with blobStore := st.blobStore ++ [id] }

/-- Handler `deleteNote` of the App component: after the confirm dialog,
instruct the AudioBlobStore to delete the blob, then remove every note with
that id from the notes list. -/
def deleteNote (confirmed : Bool) (blobDeleteOk : Bool) (id : String)
    (st : AppState) : AppState :=
  if confirmed then
    let st1 := deleteAudioBlob blobDeleteOk id st
    { st1 with notes := st1.notes.filter (fun n => n.id ≠ id) }
  else st

/-- Handler `handlePinConfirm` of the App component. In `set` mode, store the
confirmed pin on the folder and add it to the unlocked set; in `enter` mode,
compare the attempt with the found folder's pin. -/
def handlePinConfirm (pin : String) (st : AppState) : AppState :=
  match st.pinModal with
  | none => st
  | some pm =>
    match pm.mode with
    | .set =>
      { st with
        folders := st.folders.map (fun f =>
          if f.id = pm.folderId then { f with pin := some pin } else f),
        unlockedFolderIds := st.unlockedFolderIds ++ [pm.folderId],
        pinModal := none }
    | .enter =>
      if ((st.folders.find? (fun f => f.id == pm.folderId)).bind Folder.pin) == some pin then
        { st with
          unlockedFolderIds := st.unlockedFolderIds ++ [pm.folderId],
          pinModal := none }
      else
        { st with pinModal := some { pm with error := some "Incorrect PIN" } }

/-- Result fields returned by `transcribeAudio` (`geminiService.ts`). -/
structure TranscribeResponse where
  transcription : String
  summary : String
  actionItems : List String
  suggestedTitle : String
  tags : List String
deriving DecidableEq, Repr

/-- The `recorder.onstop` handler set by `startRecording`: persist the blob
under a fresh note id, then transcribe; on transcription success prepend the
new Note, otherwise surface the error; return to IDLE either way. The handler
is a closure, so `st.activeView` here is the view captured when recording
started. `saveOk` is the outcome of `saveAudioBlob` and `transcribeResult`
the outcome of `transcribeAudio` (`none` on TranscriptionError). -/
def recorderOnStop (noteId : String) (finalDuration : Int) (now : Int)
    (saveOk : Bool) (transcribeResult : Option TranscribeResponse)
    (st : AppState) : AppState :=
  let targetFolder :=
    if st.activeView = "all" ∨ st.activeView = "uncategorized" ∨ st.activeView = "favorites"
    then none else some st.activeView
  let st1 := { st with status := RecordingStatus.TRANSCRIBING }
  if saveOk then
    let st2 := saveAudioBlobEffect noteId st1
    match transcribeResult with
    | some data =>
      { st2 with
        notes := { id := noteId
                   title := data.suggestedTitle
                   transcription := data.transcription
                   summary := some data.summary
                   actionItems := some data.actionItems
                   tags := data.tags
                   audioUrl := ""
                   timestamp := now
                   duration := finalDuration
                   isPinned := false
                   isFavorite := false
                   folderId := targetFolder
                   translatedTranscription := none
                   translatedLanguage := none } :: st2.notes,
        status := RecordingStatus.IDLE,
        timer := 0 }
    | none =>
      { st2 with status := RecordingStatus.IDLE, timer := 0 }
  else
    { st1 with status := RecordingStatus.IDLE, timer := 0 }

/-! ### NoteCard audio state (`NoteCard.tsx`)

Each rendered NoteCard owns its own playback and read-aloud state
(`isPlaying`, `ttsStatus`, `activeTtsSection`, `ttsAudioRef`, `audioRef` are
component-local `useState`/`useRef` values); the handlers below act on the
state of one card only. -/

/-- The `ttsStatus` state of a NoteCard. -/
inductive TtsStatus
  | idle
  | loading
  | playing
deriving DecidableEq, Repr

/-- The `activeTtsSection` values of a NoteCard. -/
inductive TtsSection
  | summary
  | transcription
deriving DecidableEq, Repr

/-- Audio-related state of a single NoteCard. `hasTtsSource` models
`ttsAudioRef.current !== null`, `hasAudio` models a mounted `audioRef`
element with loaded audio. -/
structure CardState where
  isPlaying : Bool
  ttsStatus : TtsStatus
  activeTtsSection : Option TtsSection
  hasTtsSource : Bool
  hasAudio : Bool
deriving DecidableEq, Repr

/-- Handler `stopTts` of a NoteCard: stop and drop the TTS source, reset the
TTS status and the active-section marker. -/
def stopTts (c : CardState) : CardState :=
  { c with hasTtsSource := false, ttsStatus := .idle, activeTtsSection := none }

/-- Handler `togglePlay` of a NoteCard: pause when playing; otherwise stop
this card's TTS and start recorded playback. -/
def togglePlay (c : CardState) : CardState :=
  if c.hasAudio then
    if c.isPlaying then { c with isPlaying := false }
    else { stopTts c with isPlaying := true }
  else c

/-- Handler `handleReadAloud` of a NoteCard. `speechOk` is the outcome of the
`generateSpeech` call and the PCM decode. A second click on the playing
section stops it; otherwise any TTS of this card is cleared, this card's
recorded playback is paused, and speech is synthesized for the chosen
section's text. -/
def handleReadAloud (note : Note) (speechOk : Bool) (sec : TtsSection)
    (c : CardState) : CardState :=
  if c.ttsStatus = .playing ∧ c.activeTtsSection = some sec then stopTts c
  else
    let c1 := stopTts c
    let c2 := if c1.isPlaying ∧ c1.hasAudio then { c1 with isPlaying := false } else c1
    let c3 := { c2 with ttsStatus := .loading, activeTtsSection := some sec }
    let textToRead :=
      match sec with
      | .summary => note.summary.getD ""
      | .transcription => jsOrElse note.translatedTranscription note.transcription
    if textToRead = "" then { c3 with ttsStatus := .idle }
    else if speechOk then { c3 with ttsStatus := .playing, hasTtsSource := true }
    else { c3 with ttsStatus := .idle, activeTtsSection := none }

/-- Whether a card currently produces sound: recorded playback or playing
read-aloud. -/
def audible (c : CardState) : Bool :=
  c.isPlaying || (c.ttsStatus == .playing)

/-- Apply a function to the element at one index, leaving the rest of the
list unchanged (a handler of one NoteCard runs on that card's state only). -/
def updateAt (i : Nat) (f : α → α) : List α → List α
  | [] => []
  | c :: cs =>
    match i with
    | 0 => f c :: cs
    | n + 1 => c :: updateAt n f cs

/-- Clicking read-aloud on the card at index `i` of the rendered list: only
that card's `handleReadAloud` runs. -/
def readAloudAt (note : Note) (speechOk : Bool) (sec : TtsSection) (i : Nat)
    (cards : List CardState) : List CardState :=
  updateAt i (handleReadAloud note speechOk sec) cards

/-- Clicking play/pause on the card at index `i` of the rendered list: only
that card's `togglePlay` runs. -/
def togglePlayAt (i : Nat) (cards : List CardState) : List CardState :=
  updateAt i togglePlay cards

/-! ### Recording controller (`startRecording` in the App component) -/

/-- Outcomes of the external calls made by `startRecording`: microphone
permission (`getUserMedia`), encoding support (`getSupportedMimeType`), and
the `MediaRecorder` constructor. -/
structure RecEnv where
  micGranted : Bool
  mimeSupported : Bool
  initOk : Bool
deriving DecidableEq, Repr

/-- Recorder-related state: `sessionsStarted` counts the `MediaRecorder`
instances created and started, `devicesAcquired` the successful
`getUserMedia` acquisitions; `recorderSession` is the session held by
`mediaRecorderRef`, and `chunks` abstracts `chunksRef`. -/
structure RecState where
  status : RecordingStatus
  sessionsStarted : Nat
  devicesAcquired : Nat
  recorderSession : Option Nat
  chunks : List Nat
  timer : Nat
deriving DecidableEq, Repr

/-- Handler `startRecording` of the App component. It performs no check of
the current status: it acquires a device, picks a mime type, creates a fresh
recorder (replacing `mediaRecorderRef` and resetting `chunksRef`), starts it
and transitions to RECORDING. -/
def startRecording (env : RecEnv) (st : RecState) : RecState :=
  if !env.micGranted then st
  else
    let st1 := { st with devicesAcquired := st.devicesAcquired + 1 }
    if !env.mimeSupported then st1
    else if !env.initOk then { st1 with status := .IDLE }
    else
      { st1 with
        sessionsStarted := st1.sessionsStarted + 1,
        recorderSession := some st1.sessionsStarted,
        chunks := [],
        status := .RECORDING,
        timer := 0 }

/-- The record control of the bottom bar is rendered exactly in the IDLE
branch of the status conditional (the RECORDING branch renders the stop
control and the TRANSCRIBING branch a progress panel). -/
def recordButtonVisible (status : RecordingStatus) : Bool :=
  status == .IDLE

/-! ### Session-level event system (App + `PinModal`)

`SysState` pairs the App component state with the local `pin` state of the
mounted PinModal (`PinModal.tsx`, provided as an unnamed source file). The
events below are the user interactions of the app that touch folders, pins,
notes or the modal; `runEvents` folds them from the initial mount state. -/

/-- App state plus the PinModal's local `pin` input state. The modal's state
is freshly mounted (empty string) whenever `pinModal` transitions from
`none` to `some`. -/
structure SysState where
  app : AppState
  modalPin : String
deriving DecidableEq, Repr

/-- User-level events of a session. External outcomes (confirm dialogs, blob
store, transcription) are carried as event parameters. `noteOp` stands for
the note-only mutations (`updateNote`, pin/favorite toggles, folder moves),
which never touch the folders list or the modal. -/
inductive AppEvent
  | toggleFolderLock (folderId : String) (confirmed : Bool)
  | folderClick (folderId : String)
  | pinInput (raw : String)
  | pinSubmit
  | pinCancel
  | createFolder (name : String) (newId : String) (now : Int)
  | deleteFolder (folderId : String) (confirmed : Bool)
  | deleteNoteEvt (confirmed : Bool) (blobDeleteOk : Bool) (id : String)
  | recordingStop (noteId : String) (finalDuration : Int) (now : Int)
      (saveOk : Bool) (transcribeResult : Option TranscribeResponse)
  | noteOp (f : List Note → List Note)
  | setSearch (q : String)
  | setView (v : String)

/-- One step of the session: the handler the event triggers, as written in
the source. -/
def step (e : AppEvent) (s : SysState) : SysState :=
  match e with
  | .toggleFolderLock fid confirmed =>
    match s.app.folders.find? (fun f => f.id == fid) with
    | none => s
    | some f =>
      if f.pin.isSome then
        if confirmed then
          { s with app := { s.app with
              folders := s.app.folders.map (fun g =>
                if g.id = f.id then { g with pin := none } else g),
              unlockedFolderIds := s.app.unlockedFolderIds.filter (fun i => i ≠ f.id) } }
        else s
      else
        { app := { s.app with pinModal := some { mode := .set, folderId := f.id } },
          modalPin := "" }
  | .folderClick fid =>
    let a1 := { s.app with activeView := fid }
    match s.app.folders.find? (fun f => f.id == fid) with
    | none => { s with app := a1 }
    | some f =>
      if f.pin.isSome && !(s.app.unlockedFolderIds.contains f.id) then
        { app := { a1 with pinModal := some { mode := .enter, folderId := f.id } },
          modalPin := "" }
      else { s with app := a1 }
  | .pinInput raw =>
    if s.app.pinModal.isSome then
      let val := stripNonDigits raw
      if val.length ≤ 4 then { s with modalPin := val } else s
    else s
  | .pinSubmit =>
    if s.app.pinModal.isSome ∧ s.modalPin.length = 4 then
      { s with app := handlePinConfirm s.modalPin s.app }
    else s
  | .pinCancel =>
    match s.app.pinModal with
    | none => s
    | some pm =>
      { s with app := { s.app with
          pinModal := none,
          activeView := if pm.mode = .enter then "all" else s.app.activeView } }
  | .createFolder name newId now =>
    if jsTrim name ≠ "" then
      { s with app := { s.app with
          folders := s.app.folders ++
            [{ id := newId, name := jsTrim name, timestamp := now, pin := none }],
          activeView := newId } }
    else s
  | .deleteFolder fid confirmed =>
    if confirmed then
      { s with app := { s.app with
          folders := s.app.folders.filter (fun f => f.id ≠ fid),
          notes := s.app.notes.map (fun n =>
            if n.folderId == some fid then { n with folderId := none } else n),
          activeView := if s.app.activeView = fid then "all" else s.app.activeView } }
    else s
  | .deleteNoteEvt confirmed blobOk id => { s with app := deleteNote confirmed blobOk id s.app }
  | .recordingStop noteId dur now saveOk res =>
    { s with app := recorderOnStop noteId dur now saveOk res s.app }
  | .noteOp f => { s with app := { s.app with notes := f s.app.notes } }
  | .setSearch q => { s with app := { s.app with searchQuery := q } }
  | .setView v => { s with app := { s.app with activeView := v } }

/-- State at first launch: empty stores, library view, modal closed. -/
def initState : SysState :=
  { app := { notes := [], folders := [], unlockedFolderIds := [], activeView := "all",
             searchQuery := "", sortBy := .newest, status := .IDLE, timer := 0,
             pinModal := none, blobStore := [], blobDeletesIssued := [],
             blobDeleteFailuresLogged := 0 },
    modalPin := "" }

/-- Run a session: fold the events over the initial state. -/
def runEvents (evts : List AppEvent) : SysState :=
  evts.foldl (fun s e => step e s) initState

/-- A well-formed stored PIN: exactly 4 characters, all decimal digits. -/
def pinWf (p : String) : Prop :=
  p.length = 4 ∧ p.data.all Char.isDigit = true

/-- The PIN invariant: every folder PIN present is 4 numeric digits, and the
modal's input buffer only ever holds up to 4 digits. -/
def pinInvariant (s : SysState) : Prop :=
  (∀ f ∈ s.app.folders, ∀ p, f.pin = some p → pinWf p) ∧
    s.modalPin.length ≤ 4 ∧ s.modalPin.data.all Char.isDigit = true

/-! ### Order-theoretic facts about the comparator -/

theorem lexCmp_swap : ∀ a b : List Char, lexCmp b a = -lexCmp a b
  | [], [] => rfl
  | [], _ :: _ => rfl
  | _ :: _, [] => rfl
  | a :: as, b :: bs => by
    by_cases h1 : a < b
    · have h2 : ¬ b < a := asymm h1
      simp [lexCmp, h1, h2]
    · by_cases h2 : b < a
      · simp [lexCmp, h1, h2]
      · simp [lexCmp, h1, h2, lexCmp_swap as bs]

theorem lexCmp_eq_zero_iff : ∀ a b : List Char, lexCmp a b = 0 ↔ a = b
  | [], [] => by simp [lexCmp]
  | [], _ :: _ => by simp [lexCmp]
  | _ :: _, [] => by simp [lexCmp]
  | a :: as, b :: bs => by
    by_cases h1 : a < b
    · have hne : a ≠ b := ne_of_lt h1
      simp [lexCmp, h1, hne]
    · by_cases h2 : b < a
      · have hne : a ≠ b := (ne_of_lt h2).symm
        simp [lexCmp, h1, h2, hne]
      · have heq : a = b := le_antisymm (not_lt.mp h2) (not_lt.mp h1)
        simp [lexCmp, h1, h2, heq, lexCmp_eq_zero_iff as bs]

theorem lexCmp_neg_trans : ∀ a b c : List Char,
    lexCmp a b = -1 → lexCmp b c = -1 → lexCmp a c = -1
  | a, [], _ => by
    intro h1 _
    cases a <;> simp [lexCmp] at h1
  | _, _ :: _, [] => by
    intro _ h2
    simp [lexCmp] at h2
  | [], _ :: _, _ :: _ => by
    intro _ _
    rfl
  | a :: as, b :: bs, c :: cs => by
    intro h1 h2
    by_cases hab : a < b
    · by_cases hbc : b < c
      · simp [lexCmp, lt_trans hab hbc]
      · by_cases hcb : c < b
        · simp [lexCmp, hcb, asymm hcb] at h2
        · have hbceq : b = c := le_antisymm (not_lt.mp hcb) (not_lt.mp hbc)
          simp [lexCmp, hbceq ▸ hab]
    · by_cases hba : b < a
      · simp [lexCmp, hab, hba] at h1
      · have habe : a = b := le_antisymm (not_lt.mp hba) (not_lt.mp hab)
        simp [lexCmp, hab, hba] at h1
        by_cases hbc : b < c
        · simp [lexCmp, habe ▸ hbc]
        · by_cases hcb : c < b
          · simp [lexCmp, hcb, asymm hcb] at h2
          · have hbceq : b = c := le_antisymm (not_lt.mp hcb) (not_lt.mp hbc)
            simp [lexCmp, hbc, hcb] at h2
            have hac : ¬ a < c := habe ▸ hbceq ▸ hbc
            have hca : ¬ c < a := habe ▸ hbceq ▸ hcb
            simp [lexCmp, hac, hca, lexCmp_neg_trans as bs cs h1 h2]

theorem lexCmp_cases : ∀ a b : List Char,
    lexCmp a b = -1 ∨ lexCmp a b = 0 ∨ lexCmp a b = 1
  | [], [] => Or.inr (Or.inl rfl)
  | [], _ :: _ => Or.inl rfl
  | _ :: _, [] => Or.inr (Or.inr rfl)
  | a :: as, b :: bs => by
    by_cases h1 : a < b
    · simp [lexCmp, h1]
    · by_cases h2 : b < a
      · simp [lexCmp, h1, h2]
      · simpa [lexCmp, h1, h2] using lexCmp_cases as bs

theorem lexCmp_le_trans {a b c : List Char}
    (h1 : lexCmp a b ≤ 0) (h2 : lexCmp b c ≤ 0) : lexCmp a c ≤ 0 := by
  rcases lexCmp_cases a b with hab | hab | hab
  · rcases lexCmp_cases b c with hbc | hbc | hbc
    · have := lexCmp_neg_trans a b c hab hbc
      omega
    · have : b = c := (lexCmp_eq_zero_iff b c).mp hbc
      subst this
      omega
    · omega
  · have : a = b := (lexCmp_eq_zero_iff a b).mp hab
    subst this
    exact h2
  · omega

theorem localeCompare_swap (a b : String) : localeCompare b a = -localeCompare a b :=
  lexCmp_swap _ _

theorem localeCompare_le_trans {a b c : String}
    (h1 : localeCompare a b ≤ 0) (h2 : localeCompare b c ≤ 0) :
    localeCompare a c ≤ 0 :=
  lexCmp_le_trans h1 h2

theorem tieCmp_swap (s : SortOption) (a b : Note) : tieCmp s b a = -tieCmp s a b := by
  cases s <;> simp only [tieCmp] <;>
    first
    | omega
    | exact localeCompare_swap a.title b.title

theorem tieCmp_le_trans (s : SortOption) (a b c : Note)
    (h1 : tieCmp s a b ≤ 0) (h2 : tieCmp s b c ≤ 0) : tieCmp s a c ≤ 0 := by
  cases s <;> simp only [tieCmp] at * <;>
    first
    | omega
    | exact localeCompare_le_trans h1 h2

theorem noteCmp_swap (s : SortOption) (a b : Note) : noteCmp s b a = -noteCmp s a b := by
  cases ha : a.isPinned <;> cases hb : b.isPinned <;> simp [noteCmp, ha, hb] <;>
    exact tieCmp_swap s a b

theorem noteLe_total (s : SortOption) (a b : Note) : noteLe s a b ∨ noteLe s b a := by
  have h := noteCmp_swap s a b
  unfold noteLe
  omega

theorem noteLe_trans (s : SortOption) (a b c : Note)
    (h1 : noteLe s a b) (h2 : noteLe s b c) : noteLe s a c := by
  unfold noteLe noteCmp at h1 h2 ⊢
  cases ha : a.isPinned <;> cases hb : b.isPinned <;> cases hc : c.isPinned <;>
    simp [ha, hb, hc] at h1 h2 ⊢ <;>
    first
    | omega
    | exact tieCmp_le_trans s a b c h1 h2

theorem noteLe_pinned_mono (s : SortOption) (a b : Note)
    (h : noteLe s a b) (hb : b.isPinned = true) : a.isPinned = true := by
  cases ha : a.isPinned
  · unfold noteLe noteCmp at h
    simp [ha, hb] at h
  · rfl

/-! ### List-level helper lemmas -/

theorem mem_insertionSort_iff (s : SortOption) (l : List Note) (n : Note) :
    n ∈ List.insertionSort (noteLe s) l ↔ n ∈ l :=
  (List.perm_insertionSort (noteLe s) l).mem_iff

theorem find?_eq_of_mem_nodup (folders : List Folder)
    (hnd : (folders.map Folder.id).Nodup) (fx : Folder) (hm : fx ∈ folders) :
    folders.find? (fun f => f.id == fx.id) = some fx := by
  induction folders with
  | nil => cases hm
  | cons f fs ih =>
    simp only [List.map_cons, List.nodup_cons] at hnd
    rcases List.mem_cons.mp hm with h | h
    · subst h
      simp [List.find?]
    · have hne : (f.id == fx.id) = false := by
        apply beq_eq_false_iff_ne.mpr
        intro he
        exact hnd.1 (he ▸ List.mem_map.mpr ⟨fx, h, rfl⟩)
      simp only [List.find?, hne]
      exact ih hnd.2 h

theorem mem_lockedFolderIds_iff (folders : List Folder) (unl : List String)
    (fid : String) :
    fid ∈ lockedFolderIdsOf folders unl ↔
      ∃ f ∈ folders, f.id = fid ∧ (f.pin.isSome && !(unl.contains f.id)) = true := by
  unfold lockedFolderIdsOf
  constructor
  · intro h
    rcases List.mem_map.mp h with ⟨f, hf, hid⟩
    rcases List.mem_filter.mp hf with ⟨hmem, hpred⟩
    exact ⟨f, hmem, hid, hpred⟩
  · rintro ⟨f, hmem, hid, hpred⟩
    exact List.mem_map.mpr ⟨f, List.mem_filter.mpr ⟨hmem, hpred⟩, hid⟩

theorem contains_lockedFolderIds (folders : List Folder) (unl : List String)
    (hnd : (folders.map Folder.id).Nodup) (fid : String) :
    (lockedFolderIdsOf folders unl).contains fid =
      isFolderLocked folders unl (some fid) := by
  rw [Bool.eq_iff_iff, List.elem_iff, mem_lockedFolderIds_iff]
  constructor
  · rintro ⟨f, hmem, hid, hpred⟩
    have hfind : folders.find? (fun g => g.id == f.id) = some f :=
      find?_eq_of_mem_nodup folders hnd f hmem
    subst hid
    simp only [isFolderLocked, hfind]
    exact hpred
  · intro h
    have h2 : (match folders.find? (fun f => f.id == fid) with
        | none => false
        | some f => f.pin.isSome && !(unl.contains fid)) = true := h
    cases hfind : folders.find? (fun f => f.id == fid) with
    | none => rw [hfind] at h2; cases h2
    | some g =>
      rw [hfind] at h2
      have hgid : g.id = fid := by
        have := List.find?_some hfind
        exact eq_of_beq this
      exact ⟨g, List.mem_of_find?_eq_some hfind, hgid, hgid ▸ h2⟩

theorem length_filter_ne_of_mem_nodup (notes : List Note) (nid : String)
    (hnd : (notes.map Note.id).Nodup) (hm : nid ∈ notes.map Note.id) :
    (notes.filter (fun n => n.id ≠ nid)).length + 1 = notes.length := by
  induction notes with
  | nil => cases hm
  | cons n ns ih =>
    simp only [List.map_cons, List.nodup_cons] at hnd
    by_cases hc : n.id = nid
    · have hkeep : ns.filter (fun m => m.id ≠ nid) = ns := by
        apply List.filter_eq_self.mpr
        intro m hmm
        have hmid : m.id ∈ ns.map Note.id := List.mem_map.mpr ⟨m, hmm, rfl⟩
        have hne : m.id ≠ nid := fun he => hnd.1 (hc ▸ he ▸ hmid)
        simpa using hne
      have hdrop : (n :: ns).filter (fun m => m.id ≠ nid) = ns := by
        have hfalse : (decide (n.id ≠ nid)) = false := by simp [hc]
        rw [List.filter_cons, hfalse]
        simpa using hkeep
      rw [hdrop]
      simp
    · have hmem2 : nid ∈ ns.map Note.id := by
        have hx : nid = n.id ∨ ∃ a ∈ ns, a.id = nid := by simpa using hm
        rcases hx with h | ⟨a, ha, haid⟩
        · exact absurd h.symm hc
        · exact List.mem_map.mpr ⟨a, ha, haid⟩
      have hkeepn : (n :: ns).filter (fun m => m.id ≠ nid) =
          n :: ns.filter (fun m => m.id ≠ nid) := by
        rw [List.filter_cons]
        simp [hc]
      rw [hkeepn]
      have := ih hnd.2 hmem2
      simp only [List.length_cons]
      omega

theorem jsTrim_eq_empty_of_whitespace (s : String)
    (h : s.data.all Char.isWhitespace = true) : jsTrim s = "" := by
  have h1 : s.data.dropWhile Char.isWhitespace = [] :=
    List.dropWhile_eq_nil_iff.mpr (fun x hx => List.all_eq_true.mp h x hx)
  simp [jsTrim, h1]

theorem updateAt_length (i : Nat) (f : α → α) (l : List α) :
    (updateAt i f l).length = l.length := by
  induction l generalizing i with
  | nil => simp [updateAt]
  | cons c cs ih =>
    cases i with
    | zero => simp [updateAt]
    | succ n => simp [updateAt, ih]

theorem updateAt_get?_ne (i j : Nat) (f : α → α) (l : List α) (h : j ≠ i) :
    (updateAt i f l).get? j = l.get? j := by
  induction l generalizing i j with
  | nil => simp [updateAt]
  | cons c cs ih =>
    cases i with
    | zero =>
      cases j with
      | zero => exact absurd rfl h
      | succ m => simp [updateAt]
    | succ n =>
      cases j with
      | zero => simp [updateAt]
      | succ m =>
        simp only [updateAt, List.get?_cons_succ]
        exact ih n m (fun he => h (by omega))

theorem updateAt_get?_eq (i : Nat) (f : α → α) (l : List α) (h : i < l.length) :
    (updateAt i f l).get? i = (l.get? i).map f := by
  induction l generalizing i with
  | nil => simp at h
  | cons c cs ih =>
    cases i with
    | zero => simp [updateAt]
    | succ n =>
      simp only [updateAt, List.get?_cons_succ]
      exact ih n (by simpa using h)

/-! ### Sample data for concrete witnesses -/

/-- A sample note used by concrete witnesses. -/
def sampleNote : Note :=
  { id := "n1", title := "Groceries", transcription := "buy milk" }

/-- A sample PIN-protected folder used by concrete witnesses. -/
def sampleFolder : Folder :=
  { id := "f1", name := "Work", timestamp := 0, pin := some "1234" }

/-- A baseline app state used by concrete witnesses. -/
def baseState : AppState :=
  { notes := [sampleNote], folders := [sampleFolder], unlockedFolderIds := [],
    activeView := "all", searchQuery := "", sortBy := .newest,
    status := .IDLE, timer := 0, pinModal := none,
    blobStore := ["n1"], blobDeletesIssued := [], blobDeleteFailuresLogged := 0 }

/-! ### Claim C2 -/

/-- A concrete state in the middle of a recording session. -/
def recordingState : RecState :=
  { status := .RECORDING, sessionsStarted := 1, devicesAcquired := 1,
    recorderSession := some 0, chunks := [7], timer := 5 }

/-- An environment where the microphone is granted, an encoding is supported
and the recorder constructor succeeds. -/
def grantedEnv : RecEnv :=
  { micGranted := true, mimeSupported := true, initOk := true }

/-- C2 counterexample: calling `startRecording` in a RECORDING state is not a
no-op — it acquires a second audio device, creates and starts a second
recorder session, and changes the recorder state. -/
theorem c2_counterexample :
    recordingState.status = .RECORDING ∧
      (startRecording grantedEnv recordingState).devicesAcquired =
        recordingState.devicesAcquired + 1 ∧
      (startRecording grantedEnv recordingState).sessionsStarted =
        recordingState.sessionsStarted + 1 ∧
      startRecording grantedEnv recordingState ≠ recordingState := by
  decide

/-- C2 amended: `startRecording` performs no status check, so invoked from a
RECORDING state (microphone granted, encoding supported, recorder
initialized) it acquires a new audio device and replaces the current
recorder with a fresh session; concurrent recordings are prevented only by
the UI, which renders the record control solely in the IDLE state. -/
theorem c2_start_while_recording_not_guarded (env : RecEnv) (st : RecState)
    (hmic : env.micGranted = true) (hmime : env.mimeSupported = true)
    (hinit : env.initOk = true) (hrec : st.status = .RECORDING) :
    (startRecording env st).devicesAcquired = st.devicesAcquired + 1 ∧
      (startRecording env st).sessionsStarted = st.sessionsStarted + 1 ∧
      (startRecording env st).recorderSession = some st.sessionsStarted ∧
      (startRecording env st).chunks = [] ∧
      (startRecording env st).status = .RECORDING ∧
      recordButtonVisible st.status = false := by
  rw [hrec]
  simp [startRecording, hmic, hmime, hinit, recordButtonVisible]

/-- Witness for C2's amended theorem at the concrete RECORDING state. -/
theorem c2_start_while_recording_not_guarded_witness :
    (startRecording grantedEnv recordingState).devicesAcquired =
        recordingState.devicesAcquired + 1 ∧
      (startRecording grantedEnv recordingState).sessionsStarted =
        recordingState.sessionsStarted + 1 ∧
      (startRecording grantedEnv recordingState).recorderSession =
        some recordingState.sessionsStarted ∧
      (startRecording grantedEnv recordingState).chunks = [] ∧
      (startRecording grantedEnv recordingState).status = .RECORDING ∧
      recordButtonVisible recordingState.status = false :=
  c2_start_while_recording_not_guarded grantedEnv recordingState rfl rfl rfl rfl

/-! ### Claim C10 -/

/-- C10: a search query that is empty or consists only of whitespace applies
no text filter — the visible list equals the one computed with the empty
query, for every notes list, folders list, unlocked set, view and sort
order. -/
theorem c10_whitespace_query_no_filter (notes : List Note) (folders : List Folder)
    (unl : List String) (view : String) (sortBy : SortOption) (q : String)
    (h : q.data.all Char.isWhitespace = true) :
    filteredAndSortedNotes notes folders unl view q sortBy =
      filteredAndSortedNotes notes folders unl view "" sortBy := by
  have h1 : jsTrim q = "" := jsTrim_eq_empty_of_whitespace q h
  have h2 : jsTrim "" = "" := rfl
  simp [filteredAndSortedNotes, h1, h2]

/-- Witness for C10 at the query made of a single blank. -/
theorem c10_whitespace_query_no_filter_witness :
    filteredAndSortedNotes [sampleNote] [sampleFolder] [] "all" " " .newest =
      filteredAndSortedNotes [sampleNote] [sampleFolder] [] "all" "" .newest :=
  c10_whitespace_query_no_filter [sampleNote] [sampleFolder] [] "all" .newest " "
    (by decide)

/-! ### Claim C3 -/

/-- C3: for a note id present in the store (ids distinct), `deleteNote`
(after the confirm) issues exactly one AudioBlobStore delete for that id and
removes exactly one notes entry; when the blob delete fails the failure is
logged and the note removal still happens. -/
theorem c3_delete_note (st : AppState) (nid : String) (blobOk : Bool)
    (hnd : (st.notes.map Note.id).Nodup) (hm : nid ∈ st.notes.map Note.id) :
    ((deleteNote true blobOk nid st).notes.length + 1 = st.notes.length) ∧
      (deleteNote true blobOk nid st).notes = st.notes.filter (fun n => n.id ≠ nid) ∧
      (deleteNote true blobOk nid st).blobDeletesIssued =
        st.blobDeletesIssued ++ [nid] ∧
      (blobOk = false →
        (deleteNote true blobOk nid st).blobDeleteFailuresLogged =
          st.blobDeleteFailuresLogged + 1 ∧
        (deleteNote true blobOk nid st).notes =
          st.notes.filter (fun n => n.id ≠ nid)) := by
  refine ⟨?_, ?_, ?_, fun hf => ⟨?_, ?_⟩⟩
  · simpa [deleteNote, deleteAudioBlob] using
      length_filter_ne_of_mem_nodup st.notes nid hnd hm
  · simp [deleteNote, deleteAudioBlob]
  · simp [deleteNote, deleteAudioBlob]
  · simp [deleteNote, deleteAudioBlob, hf]
  · simp [deleteNote, deleteAudioBlob]

/-- Witness for C3: deleting the only note, with the blob delete failing. -/
theorem c3_delete_note_witness :
    ((deleteNote true false "n1" baseState).notes.length + 1 =
        baseState.notes.length) ∧
      (deleteNote true false "n1" baseState).blobDeletesIssued =
        baseState.blobDeletesIssued ++ ["n1"] :=
  ⟨(c3_delete_note baseState "n1" false (by decide) (by decide)).1,
    (c3_delete_note baseState "n1" false (by decide) (by decide)).2.2.1⟩

/-! ### Claim C5 -/

/-- C5: with the enter-PIN modal open for a folder that has a PIN,
`handlePinConfirm` succeeds — appending the folder id to the unlocked set
and closing the modal — exactly when the attempt equals the folder's PIN;
a wrong attempt reports the inline error and mutates neither the unlocked
set nor the folders (in particular not the stored PIN). -/
theorem c5_authenticate (st : AppState) (fx : Folder) (p attempt : String)
    (err : Option String)
    (hpm : st.pinModal = some { mode := .enter, folderId := fx.id, error := err })
    (hfind : st.folders.find? (fun f => f.id == fx.id) = some fx)
    (hpin : fx.pin = some p) :
    (((handlePinConfirm attempt st).unlockedFolderIds =
          st.unlockedFolderIds ++ [fx.id] ∧
        (handlePinConfirm attempt st).pinModal = none) ↔ attempt = p) ∧
      (handlePinConfirm attempt st).folders = st.folders ∧
      (handlePinConfirm attempt st).notes = st.notes ∧
      (attempt ≠ p →
        (handlePinConfirm attempt st).unlockedFolderIds = st.unlockedFolderIds ∧
          (handlePinConfirm attempt st).pinModal =
            some { mode := .enter, folderId := fx.id, error := some "Incorrect PIN" }) := by
  by_cases hat : attempt = p
  · subst hat
    simp [handlePinConfirm, hpm, hfind, hpin]
  · have hne : (some p == some attempt) = false := by
      simp [beq_iff_eq]
      exact fun he => hat he.symm
    refine ⟨?_, ?_, ?_, fun _ => ⟨?_, ?_⟩⟩ <;>
      simp [handlePinConfirm, hpm, hfind, hpin, hne, hat]

/-- Witness for C5: authenticating the sample folder with its own PIN. -/
theorem c5_authenticate_witness :
    (handlePinConfirm "1234"
        { baseState with
          pinModal := some { mode := .enter, folderId := "f1", error := none } }).unlockedFolderIds =
      baseState.unlockedFolderIds ++ ["f1"] :=
  (((c5_authenticate
      { baseState with
        pinModal := some { mode := .enter, folderId := "f1", error := none } }
      sampleFolder "1234" "1234" none rfl rfl rfl).1).mpr rfl).1

/-! ### Claim C7 -/

/-- C7: when the blob was persisted under a fresh note id and the
transcription call fails, no note with that id is created (the notes list is
unchanged), the stored blob is kept (no delete is issued), and the status
returns to IDLE. -/
theorem c7_transcription_failure (st : AppState) (noteId : String) (d now : Int)
    (hfresh : noteId ∉ st.notes.map Note.id) :
    (recorderOnStop noteId d now true none st).notes = st.notes ∧
      (∀ n ∈ (recorderOnStop noteId d now true none st).notes, n.id ≠ noteId) ∧
      noteId ∈ (recorderOnStop noteId d now true none st).blobStore ∧
      (recorderOnStop noteId d now true none st).blobDeletesIssued =
        st.blobDeletesIssued ∧
      (recorderOnStop noteId d now true none st).status = .IDLE := by
  refine ⟨?_, ?_, ?_, ?_, ?_⟩
  · simp [recorderOnStop, saveAudioBlobEffect]
  · intro n hn he
    have hn2 : n ∈ st.notes := by
      simpa [recorderOnStop, saveAudioBlobEffect] using hn
    exact hfresh (he ▸ List.mem_map.mpr ⟨n, hn2, rfl⟩)
  · simp [recorderOnStop, saveAudioBlobEffect]
  · simp [recorderOnStop, saveAudioBlobEffect]
  · simp [recorderOnStop, saveAudioBlobEffect]

/-- Witness for C7 at a fresh id over the base state. -/
theorem c7_transcription_failure_witness :
    (recorderOnStop "abc123" 3 1000 true none baseState).notes = baseState.notes ∧
      "abc123" ∈ (recorderOnStop "abc123" 3 1000 true none baseState).blobStore ∧
      (recorderOnStop "abc123" 3 1000 true none baseState).status = .IDLE :=
  ⟨(c7_transcription_failure baseState "abc123" 3 1000 (by decide)).1,
    (c7_transcription_failure baseState "abc123" 3 1000 (by decide)).2.2.1,
    (c7_transcription_failure baseState "abc123" 3 1000 (by decide)).2.2.2.2⟩

/-! ### Claim C8 -/

/-- C8: on transcription success the created note's folder reference is the
view captured at recording start when that view is a specific folder (not
"all", "uncategorized" or "favorites") and is unset otherwise; the search
query has no effect on the result. -/
theorem c8_target_folder (st : AppState) (noteId : String) (d now : Int)
    (data : TranscribeResponse) :
    ((recorderOnStop noteId d now true (some data) st).notes.head?.map Note.folderId =
        some (if st.activeView = "all" ∨ st.activeView = "uncategorized" ∨
              st.activeView = "favorites"
              then none else some st.activeView)) ∧
      (recorderOnStop noteId d now true (some data) st).notes.tail = st.notes ∧
      (∀ q : String,
        (recorderOnStop noteId d now true (some data)
            { st with searchQuery := q }).notes =
          (recorderOnStop noteId d now true (some data) st).notes) := by
  refine ⟨?_, ?_, fun q => ?_⟩
  · by_cases hv : st.activeView = "all" ∨ st.activeView = "uncategorized" ∨
      st.activeView = "favorites"
    · simp [recorderOnStop, saveAudioBlobEffect, hv]
    · simp [recorderOnStop, saveAudioBlobEffect, hv]
  · simp [recorderOnStop, saveAudioBlobEffect]
  · simp [recorderOnStop, saveAudioBlobEffect]

/-! ### Claim C1 -/

/-- Per-card exclusion after `handleReadAloud`: the handler never leaves its
own card with recorded playback and playing read-aloud at once. -/
theorem handleReadAloud_not_both (note : Note) (speechOk : Bool) (sec : TtsSection)
    (c : CardState) (hAudio : c.hasAudio = true) :
    ¬((handleReadAloud note speechOk sec c).isPlaying = true ∧
      (handleReadAloud note speechOk sec c).ttsStatus = .playing) := by
  by_cases h : c.ttsStatus = .playing ∧ c.activeTtsSection = some sec
  · simp [handleReadAloud, h, stopTts]
  · cases sec with
    | summary =>
      by_cases ht : note.summary.getD "" = "" <;>
        by_cases hp : c.isPlaying <;> cases speechOk <;>
        simp [handleReadAloud, stopTts, h, hp, ht, hAudio]
    | transcription =>
      by_cases ht : jsOrElse note.translatedTranscription note.transcription = "" <;>
        by_cases hp : c.isPlaying <;> cases speechOk <;>
        simp [handleReadAloud, stopTts, h, hp, ht, hAudio]

/-- Per-card exclusion after `togglePlay`. -/
theorem togglePlay_not_both (c : CardState) (hAudio : c.hasAudio = true) :
    ¬((togglePlay c).isPlaying = true ∧ (togglePlay c).ttsStatus = .playing) := by
  by_cases hp : c.isPlaying <;> simp [togglePlay, stopTts, hAudio, hp]

/-- Starting read-aloud (not the stop-again click) pauses the same card's
recorded playback. -/
theorem handleReadAloud_pauses (note : Note) (speechOk : Bool) (sec : TtsSection)
    (c : CardState) (hAudio : c.hasAudio = true)
    (h : ¬(c.ttsStatus = .playing ∧ c.activeTtsSection = some sec)) :
    (handleReadAloud note speechOk sec c).isPlaying = false := by
  cases sec with
  | summary =>
    by_cases ht : note.summary.getD "" = "" <;>
      by_cases hp : c.isPlaying <;> cases speechOk <;>
      simp [handleReadAloud, stopTts, h, hp, ht, hAudio]
  | transcription =>
    by_cases ht : jsOrElse note.translatedTranscription note.transcription = "" <;>
      by_cases hp : c.isPlaying <;> cases speechOk <;>
      simp [handleReadAloud, stopTts, h, hp, ht, hAudio]

/-- A card in the middle of recorded playback. -/
def playingCard : CardState :=
  { isPlaying := true, ttsStatus := .idle, activeTtsSection := none,
    hasTtsSource := false, hasAudio := true }

/-- A silent card. -/
def idleCard : CardState :=
  { isPlaying := false, ttsStatus := .idle, activeTtsSection := none,
    hasTtsSource := false, hasAudio := true }

/-- A note with a nonempty transcription, for read-aloud. -/
def sampleTtsNote : Note :=
  { id := "n2", title := "Ideas", transcription := "hello" }

/-- C1 counterexample: with the note at index 0 playing its recording,
starting read-aloud on the note at index 1 leaves note 0 playing untouched —
afterwards both notes are audible at once, so the claimed exclusion across
all notes does not hold. -/
theorem c1_counterexample :
    (readAloudAt sampleTtsNote true .transcription 1 [playingCard, idleCard]).map audible =
        [true, true] ∧
      (readAloudAt sampleTtsNote true .transcription 1 [playingCard, idleCard]).get? 0 =
        some playingCard := by
  decide

/-- C1 amended: the exclusion between recorded playback and read-aloud is
enforced within each single note card only — `handleReadAloud` stops that
card's read-aloud and pauses that card's playback, `togglePlay` stops that
card's read-aloud — and a handler invoked on one card leaves every other
card's audio state unchanged, so sources on different notes are not
coordinated. -/
theorem c1_per_note_exclusion (note : Note) (speechOk : Bool) (sec : TtsSection)
    (c : CardState) (i j : Nat) (cards : List CardState)
    (hAudio : c.hasAudio = true) (hne : j ≠ i) :
    (¬((handleReadAloud note speechOk sec c).isPlaying = true ∧
        (handleReadAloud note speechOk sec c).ttsStatus = .playing)) ∧
      (¬((togglePlay c).isPlaying = true ∧ (togglePlay c).ttsStatus = .playing)) ∧
      ((¬(c.ttsStatus = .playing ∧ c.activeTtsSection = some sec)) →
        (handleReadAloud note speechOk sec c).isPlaying = false) ∧
      (readAloudAt note speechOk sec i cards).get? j = cards.get? j ∧
      (togglePlayAt i cards).get? j = cards.get? j :=
  ⟨handleReadAloud_not_both note speechOk sec c hAudio,
    togglePlay_not_both c hAudio,
    fun h => handleReadAloud_pauses note speechOk sec c hAudio h,
    updateAt_get?_ne i j _ cards hne,
    updateAt_get?_ne i j _ cards hne⟩

/-- Witness for C1's amended theorem at concrete cards. -/
theorem c1_per_note_exclusion_witness :
    (¬((handleReadAloud sampleTtsNote true .transcription playingCard).isPlaying = true ∧
        (handleReadAloud sampleTtsNote true .transcription playingCard).ttsStatus =
          .playing)) ∧
      (¬((togglePlay playingCard).isPlaying = true ∧
          (togglePlay playingCard).ttsStatus = .playing)) ∧
      ((¬(playingCard.ttsStatus = .playing ∧
          playingCard.activeTtsSection = some .transcription)) →
        (handleReadAloud sampleTtsNote true .transcription playingCard).isPlaying =
          false) ∧
      (readAloudAt sampleTtsNote true .transcription 0 [playingCard, idleCard]).get? 1 =
        [playingCard, idleCard].get? 1 ∧
      (togglePlayAt 0 [playingCard, idleCard]).get? 1 =
        [playingCard, idleCard].get? 1 :=
  c1_per_note_exclusion sampleTtsNote true .transcription playingCard 0 1
    [playingCard, idleCard] rfl (by decide)

/-! ### Claim C6 -/

/-- The visible list produced by the insertion sort is ordered by the
comparator, hence every pinned note precedes every unpinned one. -/
theorem sorted_pinned_first (s : SortOption) (l : List Note) :
    (List.insertionSort (noteLe s) l).Pairwise
      (fun a b => b.isPinned = true → a.isPinned = true) := by
  haveI : IsTotal Note (noteLe s) := ⟨noteLe_total s⟩
  haveI : IsTrans Note (noteLe s) := ⟨noteLe_trans s⟩
  have hs := List.sorted_insertionSort (noteLe s) l
  exact List.Pairwise.imp (fun hab hb => noteLe_pinned_mono s _ _ hab hb) hs

/-- Scenario note titled "Banana". -/
def bananaNote : Note := { id := "b1", title := "Banana", transcription := "" }

/-- Scenario note titled "apple". -/
def appleNote : Note := { id := "a1", title := "apple", transcription := "" }

/-- Scenario note titled "Cherry", pinned. -/
def cherryNote : Note :=
  { id := "c1", title := "Cherry", transcription := "", isPinned := true }

/-- C6: under every sort order every pinned note precedes every unpinned
note in the visible list, and in the alphabetical order the titles
["Banana", "apple", "Cherry"] with "Cherry" pinned come out as
["Cherry", "apple", "Banana"] — the locale-aware comparison is
case-insensitive, so "apple" sorts before "Banana". -/
theorem c6_pinned_first_and_alphabetical :
    (∀ (notes : List Note) (folders : List Folder) (unl : List String)
      (view q : String) (s : SortOption),
      (filteredAndSortedNotes notes folders unl view q s).Pairwise
        (fun a b => b.isPinned = true → a.isPinned = true)) ∧
      (filteredAndSortedNotes [bananaNote, appleNote, cherryNote] [] [] "all" ""
          .alphabetical).map Note.title = ["Cherry", "apple", "Banana"] := by
  constructor
  · intro notes folders unl view q s
    exact sorted_pinned_first s _
  · decide

/-! ### Claim C4 -/

/-- The folder-view branch of `filteredAndSortedNotes` with an empty query:
an empty list when the folder id is in the locked set, else the referencing
notes, sorted. -/
theorem fASN_folder_view (notes : List Note) (folders : List Folder)
    (unl : List String) (sortBy : SortOption) (view : String)
    (hv1 : view ≠ "all") (hv2 : view ≠ "uncategorized") (hv3 : view ≠ "favorites") :
    filteredAndSortedNotes notes folders unl view "" sortBy =
      List.insertionSort (noteLe sortBy)
        (if (lockedFolderIdsOf folders unl).contains view then []
         else notes.filter (fun n => n.folderId == some view)) := by
  have hq : ¬(jsTrim "" ≠ "") := by simp [jsTrim]
  simp only [filteredAndSortedNotes, if_neg hv1, if_neg hv2, if_neg hv3, if_neg hq]

/-- The "all" branch of `filteredAndSortedNotes` with an empty query. -/
theorem fASN_all_view (notes : List Note) (folders : List Folder)
    (unl : List String) (sortBy : SortOption) :
    filteredAndSortedNotes notes folders unl "all" "" sortBy =
      List.insertionSort (noteLe sortBy)
        (notes.filter (fun n =>
          match n.folderId with
          | none => true
          | some fid => !((lockedFolderIdsOf folders unl).contains fid))) := by
  have hq : ¬(jsTrim "" ≠ "") := by simp [jsTrim]
  simp only [filteredAndSortedNotes, if_neg hq]
  rw [if_pos trivial]

/-- For a folder of the list (folder ids distinct), being in the locked-id
set is having a PIN while being absent from the unlocked set. -/
theorem contains_locked_iff (folders : List Folder) (unl : List String)
    (hnd : (folders.map Folder.id).Nodup) (fx : Folder) (hmem : fx ∈ folders) :
    (lockedFolderIdsOf folders unl).contains fx.id = true ↔
      (fx.pin.isSome = true ∧ fx.id ∉ unl) := by
  rw [contains_lockedFolderIds folders unl hnd fx.id]
  have hfind : folders.find? (fun f => f.id == fx.id) = some fx :=
    find?_eq_of_mem_nodup folders hnd fx hmem
  simp [isFolderLocked, hfind, List.elem_iff]

/-- C4: the view of folder `fx` (with an empty query) is empty exactly when
`fx` has a PIN and its id is absent from the unlocked set, and otherwise
holds exactly the notes referencing `fx`; a successful `handlePinConfirm`
appends the folder id to the unlocked set, changes neither notes nor
folders, and makes every note of the folder visible again; the "all" view
holds exactly the notes with no folder or a folder that is not locked. -/
theorem c4_lock_visibility (notes : List Note) (folders : List Folder)
    (unl : List String) (sortBy : SortOption) (fx : Folder)
    (hnd : (folders.map Folder.id).Nodup) (hmem : fx ∈ folders)
    (hv1 : fx.id ≠ "all") (hv2 : fx.id ≠ "uncategorized") (hv3 : fx.id ≠ "favorites")
    (hnote : ∃ n ∈ notes, n.folderId = some fx.id) :
    (filteredAndSortedNotes notes folders unl fx.id "" sortBy = [] ↔
        (fx.pin.isSome = true ∧ fx.id ∉ unl)) ∧
      (¬(fx.pin.isSome = true ∧ fx.id ∉ unl) →
        ∀ n, n ∈ filteredAndSortedNotes notes folders unl fx.id "" sortBy ↔
          n ∈ notes ∧ n.folderId = some fx.id) ∧
      (∀ (st : AppState) (err : Option String) (p : String),
        st.pinModal = some { mode := .enter, folderId := fx.id, error := err } →
        st.folders = folders → st.unlockedFolderIds = unl → st.notes = notes →
        fx.pin = some p →
          (handlePinConfirm p st).notes = notes ∧
          (handlePinConfirm p st).folders = folders ∧
          (handlePinConfirm p st).unlockedFolderIds = unl ++ [fx.id] ∧
          (handlePinConfirm p st).pinModal = none ∧
          ∀ n ∈ notes, n.folderId = some fx.id →
            n ∈ filteredAndSortedNotes notes folders (unl ++ [fx.id]) fx.id "" sortBy) ∧
      (∀ n, n ∈ filteredAndSortedNotes notes folders unl "all" "" sortBy ↔
        n ∈ notes ∧
          (n.folderId = none ∨ isFolderLocked folders unl n.folderId = false)) := by
  have hfold := fASN_folder_view notes folders unl sortBy fx.id hv1 hv2 hv3
  have hlock := contains_locked_iff folders unl hnd fx hmem
  refine ⟨?_, ?_, ?_, ?_⟩
  · by_cases hc : (lockedFolderIdsOf folders unl).contains fx.id = true
    · rw [hfold, if_pos hc]
      simpa using hlock.mp hc
    · rw [hfold, if_neg (by simpa using hc)]
      constructor
      · intro hempty
        exfalso
        obtain ⟨n0, hn0, hf0⟩ := hnote
        have hmem0 : n0 ∈ List.insertionSort (noteLe sortBy)
            (notes.filter (fun n => n.folderId == some fx.id)) := by
          rw [mem_insertionSort_iff]
          exact List.mem_filter.mpr ⟨hn0, by simp [hf0]⟩
        rw [hempty] at hmem0
        cases hmem0
      · intro hl
        exact absurd (hlock.mpr hl) hc
  · intro hnl n
    have hc : (lockedFolderIdsOf folders unl).contains fx.id ≠ true :=
      fun hc => hnl (hlock.mp hc)
    rw [hfold, if_neg (by simpa using hc), mem_insertionSort_iff, List.mem_filter]
    simp
  · intro st err p hpm hf hu hn hp
    have hfind : st.folders.find? (fun f => f.id == fx.id) = some fx := by
      rw [hf]
      exact find?_eq_of_mem_nodup folders hnd fx hmem
    have hok : ((st.folders.find? (fun f => f.id == fx.id)).bind Folder.pin) =
        some p := by
      rw [hfind]
      simpa using hp
    have hstep : handlePinConfirm p st =
        { st with unlockedFolderIds := st.unlockedFolderIds ++ [fx.id],
                  pinModal := none } := by
      simp [handlePinConfirm, hpm, hok]
    refine ⟨?_, ?_, ?_, ?_, ?_⟩
    · rw [hstep]
      exact hn
    · rw [hstep]
      exact hf
    · rw [hstep, hu]
    · rw [hstep]
    · intro n hmemn hfid
      have hnotmem : fx.id ∉ lockedFolderIdsOf folders (unl ++ [fx.id]) := by
        rw [mem_lockedFolderIds_iff]
        rintro ⟨f, hfm, hfid2, hpred⟩
        rw [hfid2] at hpred
        simp [List.elem_iff] at hpred
      rw [fASN_folder_view notes folders (unl ++ [fx.id]) sortBy fx.id hv1 hv2 hv3,
        if_neg (by simpa using hnotmem), mem_insertionSort_iff, List.mem_filter]
      exact ⟨hmemn, by simp [hfid]⟩
  · intro n
    rw [fASN_all_view notes folders unl sortBy, mem_insertionSort_iff, List.mem_filter]
    cases hfid : n.folderId with
    | none => simp
    | some fid =>
      have hred : (match some fid with
          | none => true
          | some f => !((lockedFolderIdsOf folders unl).contains f)) =
          !((lockedFolderIdsOf folders unl).contains fid) := rfl
      rw [hred, contains_lockedFolderIds folders unl hnd fid]
      simp

/-- A note stored in the sample protected folder. -/
def c4Note : Note :=
  { id := "n3", title := "Spec", transcription := "draft", folderId := some "f1" }

/-- Witness for C4: the locked sample folder's view is empty, and unlocking
is exactly what makes it nonempty. -/
theorem c4_lock_visibility_witness :
    filteredAndSortedNotes [c4Note] [sampleFolder] [] "f1" "" .newest = [] ↔
      (sampleFolder.pin.isSome = true ∧ sampleFolder.id ∉ ([] : List String)) :=
  (c4_lock_visibility [c4Note] [sampleFolder] [] .newest sampleFolder
    (by decide) (by decide) (by decide) (by decide) (by decide)
    ⟨c4Note, by decide, rfl⟩).1

/-! ### Claim C9 -/

/-- The digit filter of the PIN input yields only digits. -/
theorem stripNonDigits_all_digits (s : String) :
    (stripNonDigits s).data.all Char.isDigit = true := by
  rw [List.all_eq_true]
  intro c hc
  exact (List.mem_filter.mp hc).2

/-- Deleting a note never touches the folders list. -/
theorem deleteNote_folders (c b : Bool) (id : String) (st : AppState) :
    (deleteNote c b id st).folders = st.folders := by
  cases c <;> simp [deleteNote, deleteAudioBlob]

/-- The pipeline completion never touches the folders list. -/
theorem recorderOnStop_folders (noteId : String) (d now : Int) (saveOk : Bool)
    (res : Option TranscribeResponse) (st : AppState) :
    (recorderOnStop noteId d now saveOk res st).folders = st.folders := by
  cases saveOk <;> cases res <;> simp [recorderOnStop, saveAudioBlobEffect]

/-- `handlePinConfirm` keeps the folder-PIN invariant when the confirmed
string is well formed. -/
theorem handlePinConfirm_pins (pin : String) (st : AppState)
    (hwf : pinWf pin)
    (hf : ∀ f ∈ st.folders, ∀ p, f.pin = some p → pinWf p) :
    ∀ f ∈ (handlePinConfirm pin st).folders, ∀ p, f.pin = some p → pinWf p := by
  cases hpm : st.pinModal with
  | none =>
    simp only [handlePinConfirm, hpm]
    exact hf
  | some pm =>
    obtain ⟨pmode, pfid, perr⟩ := pm
    cases pmode with
    | set =>
      intro f hmemf p hp
      have hmap : (handlePinConfirm pin st).folders = st.folders.map (fun g =>
          if g.id = pfid then { g with pin := some pin } else g) := by
        simp only [handlePinConfirm, hpm]
      rw [hmap] at hmemf
      rcases List.mem_map.mp hmemf with ⟨g, hg, hgf⟩
      by_cases hgid : g.id = pfid
      · rw [if_pos hgid] at hgf
        rw [← hgf] at hp
        simp at hp
        rw [← hp]
        exact hwf
      · rw [if_neg hgid] at hgf
        exact hf g hg p (hgf ▸ hp)
    | enter =>
      intro f hmemf p hp
      have hcases : (handlePinConfirm pin st).folders = st.folders := by
        simp only [handlePinConfirm, hpm]
        by_cases hc : (((st.folders.find? (fun f => f.id == pfid)).bind Folder.pin) ==
            some pin) = true
        · rw [if_pos hc]
        · rw [if_neg hc]
      rw [hcases] at hmemf
      exact hf f hmemf p hp

/-- One event preserves the PIN invariant. -/
theorem step_preserves_pinInvariant (e : AppEvent) (s : SysState)
    (h : pinInvariant s) : pinInvariant (step e s) := by
  obtain ⟨hf, hlen, hdig⟩ := h
  cases e with
  | toggleFolderLock fid confirmed =>
    cases hfind : s.app.folders.find? (fun f => f.id == fid) with
    | none =>
      have hs : step (.toggleFolderLock fid confirmed) s = s := by simp [step, hfind]
      rw [hs]
      exact ⟨hf, hlen, hdig⟩
    | some f =>
      by_cases hp : f.pin.isSome = true
      · cases confirmed with
        | false =>
          have hs : step (.toggleFolderLock fid false) s = s := by simp [step, hfind, hp]
          rw [hs]
          exact ⟨hf, hlen, hdig⟩
        | true =>
          have hs : step (.toggleFolderLock fid true) s =
              { s with app :=
                  { s.app with
                    folders := s.app.folders.map (fun g =>
                      if g.id = f.id then { g with pin := none } else g),
                    unlockedFolderIds :=
                      s.app.unlockedFolderIds.filter (fun i => i ≠ f.id) } } := by
            simp [step, hfind, hp]
          rw [hs]
          refine ⟨?_, hlen, hdig⟩
          intro g hg p hgp
          rcases List.mem_map.mp hg with ⟨x, hx, hxg⟩
          by_cases hxid : x.id = f.id
          · rw [if_pos hxid] at hxg
            rw [← hxg] at hgp
            simp at hgp
          · rw [if_neg hxid] at hxg
            exact hf x hx p (hxg ▸ hgp)
      · have hs : step (.toggleFolderLock fid confirmed) s =
            { app :=
                { s.app with
                  pinModal := some { mode := .set, folderId := f.id, error := none } },
              modalPin := "" } := by
          simp [step, hfind, hp]
        rw [hs]
        refine ⟨hf, ?_, ?_⟩
        · show ("" : String).length ≤ 4
          decide
        · show ("" : String).data.all Char.isDigit = true
          decide
  | folderClick fid =>
    cases hfind : s.app.folders.find? (fun f => f.id == fid) with
    | none =>
      have hs : step (.folderClick fid) s =
          { s with app := { s.app with activeView := fid } } := by simp [step, hfind]
      rw [hs]
      exact ⟨hf, hlen, hdig⟩
    | some f =>
      by_cases hl : f.pin.isSome = true ∧ f.id ∉ s.app.unlockedFolderIds
      · have hs : step (.folderClick fid) s =
            { app :=
                { s.app with
                  activeView := fid,
                  pinModal := some { mode := .enter, folderId := f.id, error := none } },
              modalPin := "" } := by
          simp [step, hfind, hl]
        rw [hs]
        refine ⟨hf, ?_, ?_⟩
        · show ("" : String).length ≤ 4
          decide
        · show ("" : String).data.all Char.isDigit = true
          decide
      · have hs : step (.folderClick fid) s =
            { s with app := { s.app with activeView := fid } } := by
          simp [step, hfind, hl]
        rw [hs]
        exact ⟨hf, hlen, hdig⟩
  | pinInput raw =>
    by_cases hm : s.app.pinModal.isSome = true
    · by_cases hle : (stripNonDigits raw).length ≤ 4
      · have hs : step (.pinInput raw) s = { s with modalPin := stripNonDigits raw } := by
          simp [step, hm, hle]
        rw [hs]
        exact ⟨hf, hle, stripNonDigits_all_digits raw⟩
      · have hs : step (.pinInput raw) s = s := by simp [step, hm, hle]
        rw [hs]
        exact ⟨hf, hlen, hdig⟩
    · have hs : step (.pinInput raw) s = s := by simp [step, hm]
      rw [hs]
      exact ⟨hf, hlen, hdig⟩
  | pinSubmit =>
    by_cases hc : s.app.pinModal.isSome = true ∧ s.modalPin.length = 4
    · have hs : step .pinSubmit s =
          { s with app := handlePinConfirm s.modalPin s.app } := by
        simp [step, hc]
      rw [hs]
      exact ⟨handlePinConfirm_pins s.modalPin s.app ⟨hc.2, hdig⟩ hf, hlen, hdig⟩
    · have hs : step .pinSubmit s = s := by simp [step, hc]
      rw [hs]
      exact ⟨hf, hlen, hdig⟩
  | pinCancel =>
    cases hpm : s.app.pinModal with
    | none =>
      have hs : step .pinCancel s = s := by simp [step, hpm]
      rw [hs]
      exact ⟨hf, hlen, hdig⟩
    | some pm =>
      have hs : step .pinCancel s =
          { s with app :=
              { s.app with
                pinModal := none,
                activeView := if pm.mode = .enter then "all" else s.app.activeView } } := by
        simp [step, hpm]
      rw [hs]
      exact ⟨hf, hlen, hdig⟩
  | createFolder name newId now =>
    by_cases hn : jsTrim name ≠ ""
    · have hs : step (.createFolder name newId now) s =
          { s with app :=
              { s.app with
                folders := s.app.folders ++
                  [{ id := newId, name := jsTrim name, timestamp := now, pin := none }],
                activeView := newId } } := by
        simp [step, hn]
      rw [hs]
      refine ⟨?_, hlen, hdig⟩
      intro g hg p hgp
      rcases List.mem_append.mp hg with hx | hx
      · exact hf g hx p hgp
      · rw [List.mem_singleton.mp hx] at hgp
        simp at hgp
    · have hs : step (.createFolder name newId now) s = s := by simp [step, hn]
      rw [hs]
      exact ⟨hf, hlen, hdig⟩
  | deleteFolder fid confirmed =>
    cases confirmed with
    | false =>
      have hs : step (.deleteFolder fid false) s = s := by simp [step]
      rw [hs]
      exact ⟨hf, hlen, hdig⟩
    | true =>
      have hs : step (.deleteFolder fid true) s =
          { s with app :=
              { s.app with
                folders := s.app.folders.filter (fun f => f.id ≠ fid),
                notes := s.app.notes.map (fun n =>
                  if n.folderId == some fid then { n with folderId := none } else n),
                activeView :=
                  if s.app.activeView = fid then "all" else s.app.activeView } } := by
        simp [step]
      rw [hs]
      refine ⟨?_, hlen, hdig⟩
      intro g hg p hgp
      exact hf g (List.mem_filter.mp hg).1 p hgp
  | deleteNoteEvt confirmed blobOk id =>
    have hs : step (.deleteNoteEvt confirmed blobOk id) s =
        { s with app := deleteNote confirmed blobOk id s.app } := by simp [step]
    rw [hs]
    refine ⟨?_, hlen, hdig⟩
    intro g hg p hgp
    rw [deleteNote_folders confirmed blobOk id s.app] at hg
    exact hf g hg p hgp
  | recordingStop noteId dur now saveOk res =>
    have hs : step (.recordingStop noteId dur now saveOk res) s =
        { s with app := recorderOnStop noteId dur now saveOk res s.app } := by
      simp [step]
    rw [hs]
    refine ⟨?_, hlen, hdig⟩
    intro g hg p hgp
    rw [recorderOnStop_folders noteId dur now saveOk res s.app] at hg
    exact hf g hg p hgp
  | noteOp fn =>
    have hs : step (.noteOp fn) s =
        { s with app := { s.app with notes := fn s.app.notes } } := by simp [step]
    rw [hs]
    exact ⟨hf, hlen, hdig⟩
  | setSearch q =>
    have hs : step (.setSearch q) s =
        { s with app := { s.app with searchQuery := q } } := by simp [step]
    rw [hs]
    exact ⟨hf, hlen, hdig⟩
  | setView v =>
    have hs : step (.setView v) s =
        { s with app := { s.app with activeView := v } } := by simp [step]
    rw [hs]
    exact ⟨hf, hlen, hdig⟩

/-- C9: in every state reachable by a session of events from the initial
state, every folder that has a PIN has a PIN of exactly 4 numeric digits —
the PIN entry keeps only digit characters and at most four of them, the
submit confirms only at length 4, and the set-PIN operation stores exactly
the confirmed string. -/
theorem c9_pin_always_4_digits (evts : List AppEvent) :
    pinInvariant (runEvents evts) := by
  have hinit : pinInvariant initState := by
    refine ⟨?_, ?_, ?_⟩ <;> simp [initState]
  suffices hgen : ∀ (l : List AppEvent) (s : SysState), pinInvariant s →
      pinInvariant (l.foldl (fun s e => step e s) s) by
    exact hgen evts initState hinit
  intro l
  induction l with
  | nil => exact fun s hs => hs
  | cons e es ih => exact fun s hs => ih _ (step_preserves_pinInvariant e s hs)

end VoxNotes
